import Mathlib

/-!
Shallow embedding of `transfer_nlp/plugins/config.py`: the plugin registry
(`register_plugin`), the instantiator chain (`CallableInstantiator`,
`DictInstantiator`, `ListInstantiator`, three `FromMappingInstantiator`
instances), the `ObjectBuilder` dispatcher, and the `ExperimentConfig`
build driver with its cycle detection and map-like read surface.

Modelling conventions:
* Python objects flowing through the builder are modelled by the inductive
  `Value`: scalars, dicts (association lists preserving insertion order),
  lists, registered entities, and abstract results of calling an entity.
  Configuration documents and built results share this one type, exactly as
  Python passes the same objects around.
* Python dicts are association lists with first-match lookup and
  replace-or-append assignment, preserving insertion order.
* Exceptions are modelled by the `Err` type; `InstantiationImpossible`
  (an internal control signal for chain fallthrough) is the distinguished
  `IRes.imp` outcome of an instantiator.
* Registered entities are abstract: the `Ctx.call` parameter gives, for each
  registry alias, the outcome of invoking the entity stored under that
  alias with a given keyword-argument dict (normal return, or raising an
  exception).  `Ctx.registry` holds the value the Registry namespace
  returns verbatim for a reference scalar.
* The mutual recursion between `ObjectBuilder.instantiate`, the
  instantiators, and `ExperimentConfig.build` (through the experiment-store
  reference namespace) is not structurally terminating, so the interpreter
  `step` takes a fuel parameter, decremented on every internal call;
  exhausting it yields the artificial error `Err.outOfFuel`, which models
  non-termination and is not a Python exception.
* `config.startswith('$')` and `config[1:]` act on Python strings by code
  point; they are modelled by `isRef` and `dropSentinel` on `String.data`.
-/

namespace TransferNlp

/-- Python objects handled by the builder: YAML/JSON-style scalars, dicts,
lists, plus registered entities and abstract entity-call results. -/
inductive Value where
  | str (s : String)
  | int (n : Int)
  | bool (b : Bool)
  | null
  | list (elems : List Value)
  | map (kvs : List (String × Value))
  | entity (aliasName : String)
  | callResult (aliasName : String) (kwargs : List (String × Value))

/-- Exceptions of `config.py`.  `loopInConfig` is `Exception('Loop in config')`
(the spec's `CyclicBuildError`); `keyError` is Python's `KeyError`;
`unknownPlugin` is `UnknownPluginException` (a subclass of
`CallableInstantiationError`); `instErr` is `CallableInstantiationError`;
`typeError` models Python's `TypeError` for an unhashable `_name` value;
`valueError` is the `ValueError` of a duplicate registration (the spec's
`DuplicateAliasError`); `other` stands for any foreign exception raised by an
invoked entity; `outOfFuel` is the embedding artifact for exhausted fuel. -/
inductive Err where
  | loopInConfig
  | keyError (key : String)
  | unknownPlugin (registrable : Value)
  | instErr (msg : String)
  | typeError
  | valueError (aliasName : String)
  | other (msg : String)
  | outOfFuel

/-- Python `isinstance(e, CallableInstantiationError)`: true exactly for
`CallableInstantiationError` and its subclass `UnknownPluginException`. -/
def Err.isCIE : Err → Bool
  | .unknownPlugin _ => true
  | .instErr _ => true
  | _ => false

/-- Outcome of one instantiator or builder step: a produced value, the
`InstantiationImpossible` control signal, or a raised exception. -/
inductive IRes where
  | ok (v : Value)
  | imp
  | err (e : Err)

/-- Outcome of invoking a registered entity `klass(**kwargs)`: a normal
return, or an exception raised inside the entity. -/
inductive CallOutcome where
  | ok (v : Value)
  | raiseErr (e : Err)

/-- Mutable state of an `ExperimentConfig`: the built object store
`self.experiment` (a dict, i.e. ordered association list) and the
in-progress list `self.builds_started`. -/
structure ExpState where
  experiment : List (String × Value)
  buildsStarted : List String

/-- Fixed data of one `ExperimentConfig` run: the substitution variables
`env`, the `REGISTRY` contents, the invocation behaviour of the registered
entities, and the loaded configuration document `self.config`. -/
structure Ctx where
  env : List (String × Value)
  registry : List (String × Value)
  call : String → List (String × Value) → CallOutcome
  config : List (String × Value)

/-- Python dict lookup `d[k]` on an insertion-ordered association list
(keys are unique in a Python dict; first match). -/
def lookupV : List (String × Value) → String → Option Value
  | [], _ => none
  | (k, v) :: rest, key => if k = key then some v else lookupV rest key

/-- Python dict assignment `d[k] = v`: replace in place if the key exists,
else append at the end (insertion order). -/
def insertV : List (String × Value) → String → Value → List (String × Value)
  | [], key, v => [(key, v)]
  | (k, w) :: rest, key, v =>
      if k = key then (k, v) :: rest else (k, w) :: insertV rest key v

/-- Python `config.startswith('$')`: the first character is the sentinel. -/
def isRef (c : String) : Bool :=
  match c.data with
  | [] => false
  | ch :: _ => ch = '$'

/-- Python `config[1:]`: drop the first character (code point). -/
def dropSentinel (c : String) : String := ⟨c.data.drop 1⟩

/-- Message of the `CallableInstantiationError` raised when an invoked entity
fails: carries the build path `name` and the alias `klass_name`. -/
def wrapMsg (name klassName : String) : String :=
  "Error happened while instantiating \"" ++ name ++ "\", calling " ++ klassName

/-- Python hashability of a `Value`: dicts and lists are unhashable (using
one as a dict key raises `TypeError`); scalars and abstract objects hash. -/
def Value.hashable : Value → Bool
  | .map _ => false
  | .list _ => false
  | _ => true

/-- Defunctionalized requests of the mutually recursive build process.  Each
constructor names the source method (or inline comprehension) it stands for:
the `ObjectBuilder.instantiate` dispatch loop, the five instantiator
`instantiate` methods (`FromMappingInstantiator` appears once per wired
namespace: substitution variables, `REGISTRY`, experiment store), the dict /
keyword-argument / list comprehensions inside `DictInstantiator`,
`CallableInstantiator` and `ListInstantiator`, and
`ExperimentConfig.build` / `__getitem__` / the eager build loop of
`__init__`. -/
inductive Req where
  | objectBuilderInstantiate (config : Value) (name : String)
  | callableInstantiate (config : Value) (name : String)
  | dictInstantiate (config : Value) (name : String)
  | listInstantiate (config : Value) (name : String)
  | fromEnvInstantiate (config : Value) (name : String)
  | fromRegistryInstantiate (config : Value) (name : String)
  | fromExperimentInstantiate (config : Value) (name : String)
  | callableParams (name : String) (kvs : List (String × Value))
  | dictItems (name : String) (kvs : List (String × Value))
  | listItems (name : String) (i : Nat) (elems : List Value)
  | build (key : String)
  | getitem (key : String)
  | initLoop (items : List (String × Value))

/-- Fuel-indexed interpreter of the mutually recursive methods of
`config.py`.  State (`self.experiment`, `self.builds_started`) is threaded
explicitly; every internal call decrements the fuel. -/
def step (ctx : Ctx) : Nat → Req → ExpState → IRes × ExpState
  | 0, _, s => (.err .outOfFuel, s)
  | n + 1, req, s =>
    match req with
    | .objectBuilderInstantiate config name =>
      -- ObjectBuilder.instantiate: try each instantiator in the wired order,
      -- catching only InstantiationImpossible; if all decline, return the
      -- node unchanged (scalar passthrough).
      match step ctx n (.callableInstantiate config name) s with
      | (.imp, s1) =>
        match step ctx n (.dictInstantiate config name) s1 with
        | (.imp, s2) =>
          match step ctx n (.listInstantiate config name) s2 with
          | (.imp, s3) =>
            match step ctx n (.fromEnvInstantiate config name) s3 with
            | (.imp, s4) =>
              match step ctx n (.fromRegistryInstantiate config name) s4 with
              | (.imp, s5) =>
                match step ctx n (.fromExperimentInstantiate config name) s5 with
                | (.imp, s6) => (.ok config, s6)
                | r => r
              | r => r
            | r => r
          | r => r
        | r => r
      | r => r
    | .callableInstantiate config name =>
      -- CallableInstantiator.instantiate: a dict carrying '_name'; resolve
      -- the alias in REGISTRY, build the other values as keyword arguments,
      -- invoke, wrapping foreign exceptions as CallableInstantiationError.
      match config with
      | .map kvs =>
        match lookupV kvs "_name" with
        | none => (.imp, s)
        | some klassNameVal =>
          match klassNameVal with
          | .str klassName =>
            match lookupV ctx.registry klassName with
            | none => (.err (.unknownPlugin (.str klassName)), s)
            | some _klass =>
              match step ctx n (.callableParams name kvs) s with
              | (.ok (.map params), s1) =>
                match ctx.call klassName params with
                | .ok v => (.ok v, s1)
                | .raiseErr e =>
                  if e.isCIE then (.err e, s1)
                  else (.err (.instErr (wrapMsg name klassName)), s1)
              | r => r
          | notAStr =>
            -- `klass_name not in REGISTRY` with a non-string key: unhashable
            -- values raise TypeError, hashable ones are simply absent.
            if notAStr.hashable then (.err (.unknownPlugin notAStr), s)
            else (.err .typeError, s)
      | _ => (.imp, s)
    | .dictInstantiate config name =>
      -- DictInstantiator.instantiate: any dict; build every value.
      match config with
      | .map kvs => step ctx n (.dictItems name kvs) s
      | _ => (.imp, s)
    | .listInstantiate config name =>
      -- ListInstantiator.instantiate: any list; build every element.
      match config with
      | .list elems => step ctx n (.listItems name 0 elems) s
      | _ => (.imp, s)
    | .fromEnvInstantiate config _ =>
      -- FromMappingInstantiator(env, 'Environment'): a '$'-string looked up
      -- in the substitution variables; KeyError becomes Impossible.
      match config with
      | .str c =>
        if isRef c then
          match lookupV ctx.env (dropSentinel c) with
          | some v => (.ok v, s)
          | none => (.imp, s)
        else (.imp, s)
      | _ => (.imp, s)
    | .fromRegistryInstantiate config _ =>
      -- FromMappingInstantiator(REGISTRY, 'Registry').
      match config with
      | .str c =>
        if isRef c then
          match lookupV ctx.registry (dropSentinel c) with
          | some v => (.ok v, s)
          | none => (.imp, s)
        else (.imp, s)
      | _ => (.imp, s)
    | .fromExperimentInstantiate config _ =>
      -- FromMappingInstantiator(self, 'Experiment objects'): the lookup
      -- `self.env[...]` runs ExperimentConfig.__getitem__; only KeyError is
      -- turned into Impossible, every other exception propagates.
      match config with
      | .str c =>
        if isRef c then
          match step ctx n (.getitem (dropSentinel c)) s with
          | (.err (.keyError _), s1) => (.imp, s1)
          | r => r
        else (.imp, s)
      | _ => (.imp, s)
    | .callableParams name kvs =>
      -- the keyword-argument dict comprehension of CallableInstantiator,
      -- skipping the '_name' key; results collected as a dict.
      match kvs with
      | [] => (.ok (.map []), s)
      | (k, vc) :: rest =>
        if k = "_name" then step ctx n (.callableParams name rest) s
        else
          match step ctx n (.objectBuilderInstantiate vc (name ++ "." ++ k)) s with
          | (.ok v, s1) =>
            match step ctx n (.callableParams name rest) s1 with
            | (.ok (.map builtRest), s2) => (.ok (.map ((k, v) :: builtRest)), s2)
            | r => r
          | r => r
    | .dictItems name kvs =>
      -- the dict comprehension of DictInstantiator.
      match kvs with
      | [] => (.ok (.map []), s)
      | (k, vc) :: rest =>
        match step ctx n (.objectBuilderInstantiate vc (name ++ "." ++ k)) s with
        | (.ok v, s1) =>
          match step ctx n (.dictItems name rest) s1 with
          | (.ok (.map builtRest), s2) => (.ok (.map ((k, v) :: builtRest)), s2)
          | r => r
        | r => r
    | .listItems name i elems =>
      -- the list comprehension of ListInstantiator (enumerate for names).
      match elems with
      | [] => (.ok (.list []), s)
      | vc :: rest =>
        match step ctx n (.objectBuilderInstantiate vc (name ++ "." ++ toString i)) s with
        | (.ok v, s1) =>
          match step ctx n (.listItems name (i + 1) rest) s1 with
          | (.ok (.list builtRest), s2) => (.ok (.list (v :: builtRest)), s2)
          | r => r
        | r => r
    | .build key =>
      -- ExperimentConfig.build: cycle check against builds_started, append,
      -- build config[key] (KeyError if absent), store on success.
      if key ∈ s.buildsStarted then (.err .loopInConfig, s)
      else
        let s1 : ExpState := { s with buildsStarted := s.buildsStarted ++ [key] }
        match lookupV ctx.config key with
        | none => (.err (.keyError key), s1)
        | some node =>
          match step ctx n (.objectBuilderInstantiate node key) s1 with
          | (.ok v, s2) => (.ok v, { s2 with experiment := insertV s2.experiment key v })
          | r => r
    | .getitem key =>
      -- ExperimentConfig.__getitem__: cached lookup, else build on miss.
      match lookupV s.experiment key with
      | some v => (.ok v, s)
      | none => step ctx n (.build key) s
    | .initLoop items =>
      -- the eager build loop of ExperimentConfig.__init__: build every
      -- top-level key not already present in the store.
      match items with
      | [] => (.ok .null, s)
      | (key, _) :: rest =>
        if (lookupV s.experiment key).isSome then step ctx n (.initLoop rest) s
        else
          match step ctx n (.build key) s with
          | (.ok _, s1) => step ctx n (.initLoop rest) s1
          | r => r

/-- ObjectBuilder.instantiate of the wired builder. -/
def ObjectBuilder.instantiate (ctx : Ctx) (fuel : Nat) (config : Value)
    (name : String) (s : ExpState) : IRes × ExpState :=
  step ctx fuel (.objectBuilderInstantiate config name) s

/-- CallableInstantiator.instantiate. -/
def CallableInstantiator.instantiate (ctx : Ctx) (fuel : Nat) (config : Value)
    (name : String) (s : ExpState) : IRes × ExpState :=
  step ctx fuel (.callableInstantiate config name) s

/-- Keyword-argument construction of CallableInstantiator (the comprehension
over `config.items()` skipping `'_name'`). -/
def CallableInstantiator.instantiateParams (ctx : Ctx) (fuel : Nat)
    (name : String) (kvs : List (String × Value)) (s : ExpState) : IRes × ExpState :=
  step ctx fuel (.callableParams name kvs) s

/-- DictInstantiator.instantiate. -/
def DictInstantiator.instantiate (ctx : Ctx) (fuel : Nat) (config : Value)
    (name : String) (s : ExpState) : IRes × ExpState :=
  step ctx fuel (.dictInstantiate config name) s

/-- ListInstantiator.instantiate. -/
def ListInstantiator.instantiate (ctx : Ctx) (fuel : Nat) (config : Value)
    (name : String) (s : ExpState) : IRes × ExpState :=
  step ctx fuel (.listInstantiate config name) s

/-- ExperimentConfig.build. -/
def ExperimentConfig.build (ctx : Ctx) (fuel : Nat) (key : String)
    (s : ExpState) : IRes × ExpState :=
  step ctx fuel (.build key) s

/-- ExperimentConfig.__getitem__. -/
def ExperimentConfig.getitem (ctx : Ctx) (fuel : Nat) (key : String)
    (s : ExpState) : IRes × ExpState :=
  step ctx fuel (.getitem key) s

/-- ExperimentConfig.__init__ after loading: empty store and in-progress
list, then the eager build loop over the document's top-level items. -/
def ExperimentConfig.init (ctx : Ctx) (fuel : Nat) : IRes × ExpState :=
  step ctx fuel (.initLoop ctx.config) ⟨[], []⟩

/-- ExperimentConfig.get: `self.experiment.get(item, default)`, a pure read
of the already-built store (a Python `dict.get` cannot build or mutate). -/
def ExperimentConfig.get (s : ExpState) (item : String) (default : Value) : Value :=
  (lookupV s.experiment item).getD default

/-- An entity handed to `register_plugin`: its `__name__` and the object
itself as stored in the registry. -/
structure Registrable where
  name : String
  value : Value

/-- Alias actually used by `register_plugin`: Python `alias or
registrable.__name__`, so both `None` and the falsy empty string fall back
to the entity's declared name. -/
def registeredAlias (registrable : Registrable) (aliasArg : Option String) : String :=
  match aliasArg with
  | none => registrable.name
  | some al => if al = "" then registrable.name else al

/-- Python `register_plugin(registrable, alias=None)`: compute the alias,
reject a duplicate with `ValueError` (the registry is untouched because the
exception is raised before the assignment), otherwise add the entry and
hand back the registrable unchanged (decorator usage). -/
def register_plugin (registry : List (String × Value)) (registrable : Registrable)
    (aliasArg : Option String) : IRes × List (String × Value) :=
  match lookupV registry (registeredAlias registrable aliasArg) with
  | some _ => (.err (.valueError (registeredAlias registrable aliasArg)), registry)
  | none =>
      (.ok registrable.value,
        registry ++ [(registeredAlias registrable aliasArg, registrable.value)])

mutual
/-- Value nodes built only from scalars, dicts and lists, with no `_name`
type-key anywhere and no `$`-reference scalar anywhere. -/
def clean : Value → Bool
  | .str c => !isRef c
  | .int _ => true
  | .bool _ => true
  | .null => true
  | .map kvs => (lookupV kvs "_name").isNone && cleanKVs kvs
  | .list vs => cleanList vs
  | .entity _ => false
  | .callResult _ _ => false
def cleanKVs : List (String × Value) → Bool
  | [] => true
  | (_, v) :: r => clean v && cleanKVs r
def cleanList : List Value → Bool
  | [] => true
  | v :: r => clean v && cleanList r
end

mutual
/-- Fuel sufficient for `ObjectBuilder.instantiate` to traverse a clean node
completely: one unit for the dispatch loop, one for the accepting (or
declining) instantiators, plus the cost of the recursive comprehensions. -/
def cost : Value → Nat
  | .map kvs => 2 + costKVs kvs
  | .list vs => 2 + costList vs
  | _ => 2
def costKVs : List (String × Value) → Nat
  | [] => 1
  | (_, v) :: r => 1 + max (cost v) (costKVs r)
def costList : List Value → Nat
  | [] => 1
  | v :: r => 1 + max (cost v) (costList r)
end

/-- State-growth preorder of one build run: keys already in the in-progress
list stay there, and keys present in the object store stay present.  This is
the sense in which `builds_started` is append-only and `experiment` is
accretive. -/
def StateLE (s t : ExpState) : Prop :=
  (∀ x, x ∈ s.buildsStarted → x ∈ t.buildsStarted) ∧
  (∀ x, (lookupV s.experiment x).isSome = true → (lookupV t.experiment x).isSome = true)

/-- Entity-call behaviour used by concrete examples whose documents contain
no type-key: it is never consulted. -/
def dummyCall : String → List (String × Value) → CallOutcome := fun _ _ => .ok .null

/-- Concrete run for C1: document `{"x": "$x"}`, no substitution variables,
empty registry. -/
def ctxC1 : Ctx := ⟨[], [], dummyCall, [("x", .str "$x")]⟩

/-- Concrete run for C2: `VAR` present simultaneously as a substitution
variable (value 5), as a Registry alias, and as a top-level document key. -/
def ctxC2 : Ctx :=
  ⟨[("VAR", .int 5)], [("VAR", .entity "VAR")], dummyCall, [("VAR", .int 7)]⟩

/-- Concrete run for C3/C10: document `{"test": "coucou"}`. -/
def ctxC3 : Ctx := ⟨[], [], dummyCall, [("test", .str "coucou")]⟩

/-- Concrete run for C4: document `{"k": {"_name": "Nope"}}` with `Nope`
absent from the registry, so building `k` fails mid-build. -/
def ctxC4 : Ctx := ⟨[], [], dummyCall, [("k", .map [("_name", .str "Nope")])]⟩

/-- Entity-call behaviour for C5: every invocation raises a foreign
exception (not a `CallableInstantiationError`). -/
def callC5 : String → List (String × Value) → CallOutcome :=
  fun _ _ => .raiseErr (.other "boom")

/-- Concrete run for C5: alias `f` registered, invoking it raises. -/
def ctxC5 : Ctx := ⟨[], [("f", .entity "f")], callC5, []⟩

/-- Concrete run for C8, the spec's end-to-end example: document
`{"second": ["$VAR", "$test"], "test": "coucou"}` with substitution
variable `VAR=5`. -/
def ctx8 : Ctx :=
  ⟨[("VAR", .int 5)], [], dummyCall,
    [("second", .list [.str "$VAR", .str "$test"]), ("test", .str "coucou")]⟩

theorem StateLE.refl (s : ExpState) : StateLE s s := ⟨fun _ h => h, fun _ h => h⟩

theorem StateLE.trans {s t u : ExpState} (h1 : StateLE s t) (h2 : StateLE t u) :
    StateLE s u :=
  ⟨fun x hx => h2.1 x (h1.1 x hx), fun x hx => h2.2 x (h1.2 x hx)⟩

/-- Inserting into a Python dict never removes a key. -/
theorem lookupV_insertV_isSome (l : List (String × Value)) (k x : String) (v : Value)
    (h : (lookupV l x).isSome = true) : (lookupV (insertV l k v) x).isSome = true := by
  induction l with
  | nil => simp [lookupV] at h
  | cons kv rest ih =>
    obtain ⟨k', v'⟩ := kv
    by_cases hkk : k' = k
    · subst hkk
      simp only [insertV, if_pos rfl]
      by_cases hx : k' = x
      · simp [lookupV, hx]
      · simp only [lookupV, if_neg hx] at h ⊢; exact h
    · simp only [insertV, if_neg hkk]
      by_cases hx : k' = x
      · simp [lookupV, hx]
      · simp only [lookupV, if_neg hx] at h ⊢; exact ih h

theorem StateLE.appendBS (s : ExpState) (l : List String) :
    StateLE s { s with buildsStarted := s.buildsStarted ++ l } :=
  ⟨fun _ hx => List.mem_append.2 (Or.inl hx), fun _ h => h⟩

theorem StateLE.insertExp (s : ExpState) (k : String) (v : Value) :
    StateLE s { s with experiment := insertV s.experiment k v } :=
  ⟨fun _ h => h, fun _ hx => lookupV_insertV_isSome _ _ _ _ hx⟩

/-- Central frame lemma: every step of the build process only grows the
in-progress list and the object store. -/
theorem step_stateLE (ctx : Ctx) : ∀ (fuel : Nat) (req : Req) (s : ExpState),
    StateLE s (step ctx fuel req s).2 := by
  intro fuel
  induction fuel with
  | zero => intro req s; exact StateLE.refl s
  | succ n ih =>
    intro req s
    cases req with
    | objectBuilderInstantiate config name =>
      simp only [step]
      rcases h1 : step ctx n (.callableInstantiate config name) s with ⟨r1, s1⟩
      have e1 : StateLE s s1 := by
        have t := ih (.callableInstantiate config name) s; rw [h1] at t; exact t
      cases r1 <;> (try dsimp only) <;> try exact e1
      rcases h2 : step ctx n (.dictInstantiate config name) s1 with ⟨r2, s2⟩
      have e2 : StateLE s s2 := by
        have t := ih (.dictInstantiate config name) s1; rw [h2] at t; exact e1.trans t
      cases r2 <;> (try dsimp only) <;> try exact e2
      rcases h3 : step ctx n (.listInstantiate config name) s2 with ⟨r3, s3⟩
      have e3 : StateLE s s3 := by
        have t := ih (.listInstantiate config name) s2; rw [h3] at t; exact e2.trans t
      cases r3 <;> (try dsimp only) <;> try exact e3
      rcases h4 : step ctx n (.fromEnvInstantiate config name) s3 with ⟨r4, s4⟩
      have e4 : StateLE s s4 := by
        have t := ih (.fromEnvInstantiate config name) s3; rw [h4] at t; exact e3.trans t
      cases r4 <;> (try dsimp only) <;> try exact e4
      rcases h5 : step ctx n (.fromRegistryInstantiate config name) s4 with ⟨r5, s5⟩
      have e5 : StateLE s s5 := by
        have t := ih (.fromRegistryInstantiate config name) s4; rw [h5] at t; exact e4.trans t
      cases r5 <;> (try dsimp only) <;> try exact e5
      rcases h6 : step ctx n (.fromExperimentInstantiate config name) s5 with ⟨r6, s6⟩
      have e6 : StateLE s s6 := by
        have t := ih (.fromExperimentInstantiate config name) s5; rw [h6] at t; exact e5.trans t
      cases r6 <;> (try dsimp only) <;> exact e6
    | callableInstantiate config name =>
      simp only [step]
      cases config <;> (try dsimp only) <;> try exact StateLE.refl s
      case map kvs =>
      split
      · exact StateLE.refl s
      · next klassNameVal heq =>
        cases klassNameVal <;> (try dsimp only) <;>
          try (split <;> exact StateLE.refl s)
        case str klassName =>
        split
        · exact StateLE.refl s
        · rcases h1 : step ctx n (.callableParams name kvs) s with ⟨r1, s1⟩
          have e1 : StateLE s s1 := by
            have t := ih (.callableParams name kvs) s; rw [h1] at t; exact t
          cases r1 <;> (try dsimp only) <;> try exact e1
          case ok v =>
          cases v <;> (try dsimp only) <;> try exact e1
          case map params =>
          cases ctx.call klassName params <;> (try dsimp only)
          · exact e1
          · split <;> exact e1
    | dictInstantiate config name =>
      simp only [step]
      cases config <;> (try dsimp only) <;> try exact StateLE.refl s
      case map kvs => exact ih _ _
    | listInstantiate config name =>
      simp only [step]
      cases config <;> (try dsimp only) <;> try exact StateLE.refl s
      case list elems => exact ih _ _
    | fromEnvInstantiate config name =>
      simp only [step]
      cases config <;> (try dsimp only) <;> try exact StateLE.refl s
      case str c =>
        split
        · split <;> exact StateLE.refl s
        · exact StateLE.refl s
    | fromRegistryInstantiate config name =>
      simp only [step]
      cases config <;> (try dsimp only) <;> try exact StateLE.refl s
      case str c =>
        split
        · split <;> exact StateLE.refl s
        · exact StateLE.refl s
    | fromExperimentInstantiate config name =>
      simp only [step]
      cases config <;> (try dsimp only) <;> try exact StateLE.refl s
      case str c =>
        split
        · rcases h1 : step ctx n (.getitem (dropSentinel c)) s with ⟨r1, s1⟩
          have e1 : StateLE s s1 := by
            have t := ih (.getitem (dropSentinel c)) s; rw [h1] at t; exact t
          cases r1 <;> (try dsimp only) <;> try exact e1
          case err e => cases e <;> (try dsimp only) <;> exact e1
        · exact StateLE.refl s
    | callableParams name kvs =>
      simp only [step]
      cases kvs with
      | nil => exact StateLE.refl s
      | cons kv rest =>
        obtain ⟨k, vc⟩ := kv
        dsimp only
        split
        · exact ih _ _
        · rcases h1 : step ctx n (.objectBuilderInstantiate vc (name ++ "." ++ k)) s with ⟨r1, s1⟩
          have e1 : StateLE s s1 := by
            have t := ih (.objectBuilderInstantiate vc (name ++ "." ++ k)) s; rw [h1] at t; exact t
          cases r1 <;> (try dsimp only) <;> try exact e1
          case ok v =>
          rcases h2 : step ctx n (.callableParams name rest) s1 with ⟨r2, s2⟩
          have e2 : StateLE s s2 := by
            have t := ih (.callableParams name rest) s1; rw [h2] at t; exact e1.trans t
          cases r2 <;> (try dsimp only) <;> try exact e2
          case ok w => cases w <;> (try dsimp only) <;> exact e2
    | dictItems name kvs =>
      simp only [step]
      cases kvs with
      | nil => exact StateLE.refl s
      | cons kv rest =>
        obtain ⟨k, vc⟩ := kv
        dsimp only
        rcases h1 : step ctx n (.objectBuilderInstantiate vc (name ++ "." ++ k)) s with ⟨r1, s1⟩
        have e1 : StateLE s s1 := by
          have t := ih (.objectBuilderInstantiate vc (name ++ "." ++ k)) s; rw [h1] at t; exact t
        cases r1 <;> (try dsimp only) <;> try exact e1
        case ok v =>
        rcases h2 : step ctx n (.dictItems name rest) s1 with ⟨r2, s2⟩
        have e2 : StateLE s s2 := by
          have t := ih (.dictItems name rest) s1; rw [h2] at t; exact e1.trans t
        cases r2 <;> (try dsimp only) <;> try exact e2
        case ok w => cases w <;> (try dsimp only) <;> exact e2
    | listItems name i elems =>
      simp only [step]
      cases elems with
      | nil => exact StateLE.refl s
      | cons vc rest =>
        dsimp only
        rcases h1 : step ctx n (.objectBuilderInstantiate vc (name ++ "." ++ toString i)) s with ⟨r1, s1⟩
        have e1 : StateLE s s1 := by
          have t := ih (.objectBuilderInstantiate vc (name ++ "." ++ toString i)) s; rw [h1] at t; exact t
        cases r1 <;> (try dsimp only) <;> try exact e1
        case ok v =>
        rcases h2 : step ctx n (.listItems name (i + 1) rest) s1 with ⟨r2, s2⟩
        have e2 : StateLE s s2 := by
          have t := ih (.listItems name (i + 1) rest) s1; rw [h2] at t; exact e1.trans t
        cases r2 <;> (try dsimp only) <;> try exact e2
        case ok w => cases w <;> (try dsimp only) <;> exact e2
    | build key =>
      simp only [step]
      split
      · exact StateLE.refl s
      · have ebs : StateLE s { s with buildsStarted := s.buildsStarted ++ [key] } :=
          StateLE.appendBS s [key]
        cases hc : lookupV ctx.config key <;> (try dsimp only)
        · exact ebs
        · next node =>
          rcases h1 : step ctx n (.objectBuilderInstantiate node key)
              { s with buildsStarted := s.buildsStarted ++ [key] } with ⟨r1, s1⟩
          have e1 : StateLE s s1 := by
            have t := ih (.objectBuilderInstantiate node key)
              { s with buildsStarted := s.buildsStarted ++ [key] }
            rw [h1] at t; exact ebs.trans t
          cases r1 <;> (try dsimp only) <;> try exact e1
          case ok v => exact e1.trans (StateLE.insertExp s1 key v)
    | getitem key =>
      simp only [step]
      cases lookupV s.experiment key <;> (try dsimp only)
      · exact ih _ _
      · exact StateLE.refl s
    | initLoop items =>
      simp only [step]
      cases items with
      | nil => exact StateLE.refl s
      | cons kv rest =>
        obtain ⟨key, vc⟩ := kv
        dsimp only
        split
        · exact ih _ _
        · rcases h1 : step ctx n (.build key) s with ⟨r1, s1⟩
          have e1 : StateLE s s1 := by
            have t := ih (.build key) s; rw [h1] at t; exact t
          cases r1 <;> (try dsimp only) <;> try exact e1
          case ok v => exact e1.trans (ih _ s1)

/-- Looking up the key just assigned into a Python dict yields the assigned
value. -/
theorem lookupV_insertV_self (l : List (String × Value)) (k : String) (v : Value) :
    lookupV (insertV l k v) k = some v := by
  induction l with
  | nil => simp [insertV, lookupV]
  | cons kv rest ih =>
    obtain ⟨k', w⟩ := kv
    by_cases hk : k' = k
    · subst hk; simp [insertV, lookupV]
    · simp [insertV, lookupV, hk, ih]

/-- A fresh entry appended at the end of an association list is found when
its key was previously absent. -/
theorem lookupV_append_self (l : List (String × Value)) (a : String) (v : Value)
    (h : lookupV l a = none) : lookupV (l ++ [(a, v)]) a = some v := by
  induction l with
  | nil => simp [lookupV]
  | cons kv rest ih =>
    obtain ⟨k', w⟩ := kv
    by_cases hk : k' = a
    · subst hk; simp [lookupV] at h
    · simp only [List.cons_append, lookupV, if_neg hk] at h ⊢
      exact ih h

/-- A successful `ExperimentConfig.build` stores the built value under its
key. -/
theorem build_ok_mem (ctx : Ctx) (fuel : Nat) (key : String) (s : ExpState) (v : Value)
    (s' : ExpState) (h : step ctx fuel (.build key) s = (.ok v, s')) :
    lookupV s'.experiment key = some v := by
  cases fuel with
  | zero => simp [step] at h
  | succ n =>
    simp only [step] at h
    by_cases hbs : key ∈ s.buildsStarted
    · rw [if_pos hbs] at h; simp at h
    · rw [if_neg hbs] at h
      cases hc : lookupV ctx.config key with
      | none => rw [hc] at h; simp at h
      | some node =>
        rw [hc] at h
        dsimp only at h
        rcases h1 : step ctx n (.objectBuilderInstantiate node key)
            { s with buildsStarted := s.buildsStarted ++ [key] } with ⟨r1, s2⟩
        try rw [h1] at h
        cases r1 with
        | ok w =>
          dsimp only at h
          simp only [Prod.mk.injEq, IRes.ok.injEq] at h
          obtain ⟨hw, hs⟩ := h
          subst hw; subst hs
          simp [lookupV_insertV_self]
        | imp => simp at h
        | err e => simp at h

/-- After a successful run of the eager build loop of
`ExperimentConfig.__init__`, every iterated top-level key is present in the
object store. -/
theorem initLoop_builds (ctx : Ctx) : ∀ (fuel : Nat) (items : List (String × Value))
    (s : ExpState) (v : Value) (s' : ExpState),
    step ctx fuel (.initLoop items) s = (.ok v, s') →
    ∀ kv ∈ items, (lookupV s'.experiment kv.1).isSome = true := by
  intro fuel
  induction fuel with
  | zero => intro items s v s' h; simp [step] at h
  | succ n ih =>
    intro items s v s' h kv hkv
    cases items with
    | nil => simp at hkv
    | cons kv0 rest =>
      obtain ⟨key, vc⟩ := kv0
      simp only [step] at h
      by_cases hmem : (lookupV s.experiment key).isSome = true
      · rw [if_pos hmem] at h
        rcases List.mem_cons.1 hkv with hkv1 | hkv2
        · subst hkv1
          have e := step_stateLE ctx n (.initLoop rest) s
          rw [h] at e
          exact e.2 _ hmem
        · exact ih rest s v s' h kv hkv2
      · rw [if_neg hmem] at h
        rcases h1 : step ctx n (.build key) s with ⟨r1, s1⟩
        try rw [h1] at h
        cases r1 with
        | ok w =>
          dsimp only at h
          rcases List.mem_cons.1 hkv with hkv1 | hkv2
          · subst hkv1
            have hb : lookupV s1.experiment key = some w := build_ok_mem ctx n key s w s1 h1
            have e := step_stateLE ctx n (.initLoop rest) s1
            rw [h] at e
            exact e.2 _ (by simp [hb])
          · exact ih rest s1 v s' h kv hkv2
        | imp => simp at h
        | err e => simp at h

/-- Joint induction behind C7: on a clean node — only scalars, dicts and
lists, no `_name` key, no `$`-reference — the dispatcher, the dict
comprehension and the list comprehension all act as the identity and leave
the state untouched, for any fuel at least the node's traversal cost. -/
theorem clean_passthrough (ctx : Ctx) : ∀ fuel : Nat,
    (∀ config name s, clean config = true → cost config ≤ fuel →
      step ctx fuel (.objectBuilderInstantiate config name) s = (.ok config, s))
    ∧ (∀ kvs name s, cleanKVs kvs = true → costKVs kvs ≤ fuel →
      step ctx fuel (.dictItems name kvs) s = (.ok (.map kvs), s))
    ∧ (∀ elems name i s, cleanList elems = true → costList elems ≤ fuel →
      step ctx fuel (.listItems name i elems) s = (.ok (.list elems), s)) := by
  intro fuel
  induction fuel using Nat.strong_induction_on with
  | _ fuel ih =>
  refine ⟨?_, ?_, ?_⟩
  · intro config name s hclean hcost
    cases config with
    | str c =>
      have hr : isRef c = false := by simpa [clean] using hclean
      obtain ⟨m, rfl⟩ : ∃ m, fuel = m + 2 :=
        ⟨fuel - 2, by simp [cost] at hcost; omega⟩
      simp [step, hr]
    | int n0 =>
      obtain ⟨m, rfl⟩ : ∃ m, fuel = m + 2 :=
        ⟨fuel - 2, by simp [cost] at hcost; omega⟩
      simp [step]
    | bool b =>
      obtain ⟨m, rfl⟩ : ∃ m, fuel = m + 2 :=
        ⟨fuel - 2, by simp [cost] at hcost; omega⟩
      simp [step]
    | null =>
      obtain ⟨m, rfl⟩ : ∃ m, fuel = m + 2 :=
        ⟨fuel - 2, by simp [cost] at hcost; omega⟩
      simp [step]
    | map kvs =>
      have h1 : (lookupV kvs "_name").isNone = true ∧ cleanKVs kvs = true := by
        simpa [clean] using hclean
      have hn : lookupV kvs "_name" = none := Option.isNone_iff_eq_none.1 h1.1
      have hc : 2 + costKVs kvs ≤ fuel := by simpa [cost] using hcost
      obtain ⟨m, rfl⟩ : ∃ m, fuel = m + 2 := ⟨fuel - 2, by omega⟩
      have hd := (ih m (by omega)).2.1 kvs name s h1.2 (by omega)
      simp [step, hn, hd]
    | list elems =>
      have h1 : cleanList elems = true := by simpa [clean] using hclean
      have hc : 2 + costList elems ≤ fuel := by simpa [cost] using hcost
      obtain ⟨m, rfl⟩ : ∃ m, fuel = m + 2 := ⟨fuel - 2, by omega⟩
      have hl := (ih m (by omega)).2.2 elems name 0 s h1 (by omega)
      simp [step, hl]
    | entity a => simp [clean] at hclean
    | callResult a kw => simp [clean] at hclean
  · intro kvs name s hkvs hcost
    cases kvs with
    | nil =>
      obtain ⟨m, rfl⟩ : ∃ m, fuel = m + 1 :=
        ⟨fuel - 1, by simp [costKVs] at hcost; omega⟩
      simp [step]
    | cons kv rest =>
      obtain ⟨k, vc⟩ := kv
      have hc : 1 + max (cost vc) (costKVs rest) ≤ fuel := by simpa [costKVs] using hcost
      obtain ⟨m, rfl⟩ : ∃ m, fuel = m + 1 := ⟨fuel - 1, by omega⟩
      have hcl : clean vc = true ∧ cleanKVs rest = true := by simpa [cleanKVs] using hkvs
      have hb := (ih m (by omega)).1 vc (name ++ "." ++ k) s hcl.1 (by omega)
      have hrest := (ih m (by omega)).2.1 rest name s hcl.2 (by omega)
      simp [step, hb, hrest]
  · intro elems name i s helems hcost
    cases elems with
    | nil =>
      obtain ⟨m, rfl⟩ : ∃ m, fuel = m + 1 :=
        ⟨fuel - 1, by simp [costList] at hcost; omega⟩
      simp [step]
    | cons vc rest =>
      have hc : 1 + max (cost vc) (costList rest) ≤ fuel := by simpa [costList] using hcost
      obtain ⟨m, rfl⟩ : ∃ m, fuel = m + 1 := ⟨fuel - 1, by omega⟩
      have hcl : clean vc = true ∧ cleanList rest = true := by simpa [cleanList] using helems
      have hb := (ih m (by omega)).1 vc (name ++ "." ++ toString i) s hcl.1 (by omega)
      have hrest := (ih m (by omega)).2.2 rest name (i + 1) s hcl.2 (by omega)
      simp [step, hb, hrest]

/-- C1: for a document whose top-level key `x` holds the reference scalar
`"$x"`, with `x` absent from the substitution variables and from the
Registry (and neither built nor in progress yet), building `x` fails with
the cycle error `Exception('Loop in config')` — the spec's
`CyclicBuildError` — rather than recursing infinitely: the in-progress
check fires on re-entry before any further recursion, the result is the
same for every sufficient fuel, and the object store is untouched, so `x`
is never marked built (only the in-progress list has grown by `x`). -/
theorem C1_self_reference_cycle (ctx : Ctx) (fuel : Nat) (x c : String) (s : ExpState)
    (hfuel : 5 ≤ fuel)
    (hconf : lookupV ctx.config x = some (.str c))
    (hs : isRef c = true) (hd : dropSentinel c = x)
    (henv : lookupV ctx.env x = none) (hreg : lookupV ctx.registry x = none)
    (hexp : lookupV s.experiment x = none) (hbs : x ∉ s.buildsStarted) :
    ExperimentConfig.build ctx fuel x s =
      (.err .loopInConfig, { s with buildsStarted := s.buildsStarted ++ [x] }) := by
  obtain ⟨j, rfl⟩ : ∃ j, fuel = j + 5 := ⟨fuel - 5, by omega⟩
  simp [ExperimentConfig.build, step, hconf, hs, hd, henv, hreg, hexp, hbs]

/-- Witness for C1: the concrete document `{"x": "$x"}`. -/
theorem C1_witness :
    ExperimentConfig.build ctxC1 5 "x" ⟨[], []⟩ = (.err .loopInConfig, ⟨[], ["x"]⟩) := by
  have h := C1_self_reference_cycle ctxC1 5 "x" "$x" ⟨[], []⟩ (by omega)
    rfl rfl rfl rfl rfl rfl (by decide)
  exact h

/-- C2: a reference scalar whose name is simultaneously a substitution
variable, a Registry alias and a top-level document key resolves to the
substitution-variable value: the wired chain consults the namespaces in the
fixed order substitution variables, Registry, experiment store, and the
first hit wins, leaving the state unchanged. -/
theorem C2_priority_env_first (ctx : Ctx) (fuel : Nat) (c N : String)
    (v w node : Value) (s : ExpState) (name : String)
    (hfuel : 2 ≤ fuel)
    (hs : isRef c = true) (hn : dropSentinel c = N)
    (henv : lookupV ctx.env N = some v)
    (hreg : lookupV ctx.registry N = some w)
    (hconf : lookupV ctx.config N = some node) :
    ObjectBuilder.instantiate ctx fuel (.str c) name s = (.ok v, s) := by
  obtain ⟨j, rfl⟩ : ∃ j, fuel = j + 2 := ⟨fuel - 2, by omega⟩
  simp [ObjectBuilder.instantiate, step, hs, hn, henv]

/-- Witness for C2: `VAR=5` as substitution variable, `VAR` also a Registry
alias and a document key; `"$VAR"` yields 5. -/
theorem C2_witness :
    ObjectBuilder.instantiate ctxC2 2 (.str "$VAR") "n" ⟨[], []⟩ = (.ok (.int 5), ⟨[], []⟩) := by
  have h := C2_priority_env_first ctxC2 2 "$VAR" "VAR" (.int 5) (.entity "VAR") (.int 7)
    ⟨[], []⟩ "n" (by omega) rfl rfl rfl rfl rfl
  exact h

/-- C3, counterexample to the claim as stated: with the document
`{"test": "coucou"}`, construction alone — no read access ever happens —
already builds the key `test` and stores it, because
`ExperimentConfig.__init__` runs an eager build loop over all top-level
keys.  This refutes "construction does not build the key, the first read
triggers the build". -/
theorem C3_counterexample :
    ExperimentConfig.init ctxC3 10 = (.ok .null, ⟨[("test", .str "coucou")], ["test"]⟩) ∧
    lookupV (ExperimentConfig.init ctxC3 10).2.experiment "test" = some (.str "coucou") :=
  ⟨rfl, rfl⟩

/-- C3 as amended: `ExperimentConfig` builds every top-level key eagerly
during construction (skipping keys already built as a side effect of an
earlier key), so after a successful construction every top-level key is in
the object store; results are memoized, and every read of a built key is a
cached lookup returning the stored value and leaving the state unchanged —
no rebuilding. -/
theorem C3_eager_build_memoized :
    (∀ (ctx : Ctx) (fuel : Nat) (v : Value) (s' : ExpState),
        ExperimentConfig.init ctx fuel = (.ok v, s') →
        ∀ kv ∈ ctx.config, (lookupV s'.experiment kv.1).isSome = true)
    ∧ (∀ (ctx : Ctx) (fuel : Nat) (k : String) (v : Value) (s : ExpState), 1 ≤ fuel →
        lookupV s.experiment k = some v →
        ExperimentConfig.getitem ctx fuel k s = (.ok v, s)) := by
  constructor
  · intro ctx fuel v s' h kv hkv
    simp only [ExperimentConfig.init] at h
    exact initLoop_builds ctx fuel ctx.config ⟨[], []⟩ v s' h kv hkv
  · intro ctx fuel k v s hfuel hv
    obtain ⟨m, rfl⟩ : ∃ m, fuel = m + 1 := ⟨fuel - 1, by omega⟩
    simp [ExperimentConfig.getitem, step, hv]

/-- Witness for amended C3: after constructing over `{"test": "coucou"}`,
the key `test` is in the store, and reading it is a cached lookup that
leaves the state unchanged. -/
theorem C3_witness :
    (lookupV (⟨[("test", .str "coucou")], ["test"]⟩ : ExpState).experiment "test").isSome = true ∧
    ExperimentConfig.getitem ctxC3 3 "test" ⟨[("test", .str "coucou")], ["test"]⟩ =
      (.ok (.str "coucou"), ⟨[("test", .str "coucou")], ["test"]⟩) := by
  constructor
  · exact C3_eager_build_memoized.1 ctxC3 10 .null ⟨[("test", .str "coucou")], ["test"]⟩ rfl
      ("test", .str "coucou") (List.mem_singleton.2 rfl)
  · exact C3_eager_build_memoized.2 ctxC3 3 "test" (.str "coucou")
      ⟨[("test", .str "coucou")], ["test"]⟩ (by omega) rfl

/-- C4: a top-level key whose build starts (it passes the cycle check and is
appended to the in-progress list) and then fails with any error stays in
the in-progress list — nothing ever removes it — so every later attempt to
build that key fails with the cycle error `'Loop in config'` even though no
true cycle exists. -/
theorem C4_failed_build_poisons (ctx : Ctx) (fuel : Nat) (k : String) (s : ExpState)
    (e : Err) (s' : ExpState)
    (hfuel : 1 ≤ fuel) (hbs : k ∉ s.buildsStarted)
    (hrun : ExperimentConfig.build ctx fuel k s = (.err e, s')) :
    k ∈ s'.buildsStarted ∧
    ∀ fuel', 1 ≤ fuel' →
      ExperimentConfig.build ctx fuel' k s' = (.err .loopInConfig, s') := by
  obtain ⟨m, rfl⟩ : ∃ m, fuel = m + 1 := ⟨fuel - 1, by omega⟩
  simp only [ExperimentConfig.build, step] at hrun
  rw [if_neg hbs] at hrun
  have hmem : k ∈ s'.buildsStarted := by
    cases hc : lookupV ctx.config k with
    | none =>
      rw [hc] at hrun
      dsimp only at hrun
      have h2 := congrArg Prod.snd hrun
      dsimp at h2
      rw [← h2]
      simp
    | some node =>
      rw [hc] at hrun
      dsimp only at hrun
      rcases h1 : step ctx m (.objectBuilderInstantiate node k)
          { s with buildsStarted := s.buildsStarted ++ [k] } with ⟨r1, s2⟩
      try rw [h1] at hrun
      have e1 := step_stateLE ctx m (.objectBuilderInstantiate node k)
          { s with buildsStarted := s.buildsStarted ++ [k] }
      rw [h1] at e1
      have hk2 : k ∈ s2.buildsStarted := e1.1 k (by simp)
      cases r1 with
      | ok w => dsimp only at hrun; simp at hrun
      | imp => simp at hrun
      | err e2 =>
        dsimp only at hrun
        have h2 := congrArg Prod.snd hrun
        dsimp at h2
        rw [← h2]
        exact hk2
  refine ⟨hmem, ?_⟩
  intro fuel' hf'
  obtain ⟨j, rfl⟩ : ∃ j, fuel' = j + 1 := ⟨fuel' - 1, by omega⟩
  simp [ExperimentConfig.build, step, hmem]

/-- Witness for C4: building `k` over `{"k": {"_name": "Nope"}}` fails with
`UnknownPluginException`, and afterwards `k` sits in the in-progress list,
so a retry reports the false cycle. -/
theorem C4_witness :
    "k" ∈ (⟨[], ["k"]⟩ : ExpState).buildsStarted ∧
    ExperimentConfig.build ctxC4 5 "k" ⟨[], ["k"]⟩ = (.err .loopInConfig, ⟨[], ["k"]⟩) := by
  have h := C4_failed_build_poisons ctxC4 10 "k" ⟨[], []⟩
    (.unknownPlugin (.str "Nope")) ⟨[], ["k"]⟩ (by omega) (by decide) rfl
  exact ⟨h.1, h.2 5 (by omega)⟩

/-- C5: when a type-key dict's alias resolves in the Registry, the keyword
arguments build successfully, and the invoked entity raises, the outcome
is: an exception that already is a `CallableInstantiationError` propagates
unchanged (no double-wrapping), and any other exception is re-raised as a
`CallableInstantiationError` whose message carries the build path and the
alias. -/
theorem C5_wraps_foreign_errors (ctx : Ctx) (m : Nat)
    (kvs params : List (String × Value)) (name klassName : String)
    (klass : Value) (s s1 : ExpState) (e : Err)
    (hname : lookupV kvs "_name" = some (.str klassName))
    (hreg : lookupV ctx.registry klassName = some klass)
    (hparams : CallableInstantiator.instantiateParams ctx m name kvs s =
      (.ok (.map params), s1))
    (hcall : ctx.call klassName params = .raiseErr e) :
    CallableInstantiator.instantiate ctx (m + 1) (.map kvs) name s =
      (.err (if e.isCIE then e else .instErr (wrapMsg name klassName)), s1) := by
  simp only [CallableInstantiator.instantiateParams] at hparams
  simp only [CallableInstantiator.instantiate, step, hname, hreg, hparams, hcall]
  cases hc : e.isCIE <;> simp [hc]

/-- Witness for C5: invoking `f` raises the foreign exception
`other "boom"`, which surfaces wrapped as a `CallableInstantiationError`
naming the path and alias. -/
theorem C5_witness :
    CallableInstantiator.instantiate ctxC5 7 (.map [("_name", .str "f"), ("a", .int 5)])
        "n" ⟨[], []⟩ =
      (.err (.instErr (wrapMsg "n" "f")), ⟨[], []⟩) := by
  have h := C5_wraps_foreign_errors ctxC5 6 [("_name", .str "f"), ("a", .int 5)]
    [("a", .int 5)] "n" "f" (.entity "f") ⟨[], []⟩ ⟨[], []⟩ (.other "boom")
    rfl rfl rfl rfl
  exact h

/-- C6: a successful registration stores the entity under the computed
alias — looking the alias up afterwards returns exactly the registered
entity — and hands the entity back unchanged (decorator usage); registering
any entity under an already-present alias fails with `ValueError` (the
spec's `DuplicateAliasError`) and returns the registry unmodified, so the
existing entry survives untouched. -/
theorem C6_registry_contract (registry : List (String × Value)) (r : Registrable)
    (aliasArg : Option String) :
    (lookupV registry (registeredAlias r aliasArg) = none →
      register_plugin registry r aliasArg =
        (.ok r.value, registry ++ [(registeredAlias r aliasArg, r.value)]) ∧
      lookupV (registry ++ [(registeredAlias r aliasArg, r.value)])
          (registeredAlias r aliasArg) = some r.value)
    ∧ (∀ w, lookupV registry (registeredAlias r aliasArg) = some w →
      register_plugin registry r aliasArg =
        (.err (.valueError (registeredAlias r aliasArg)), registry)) := by
  constructor
  · intro h
    refine ⟨?_, lookupV_append_self registry _ r.value h⟩
    simp [register_plugin, h]
  · intro w h
    simp [register_plugin, h]

/-- Witness for C6: registering `A` in an empty registry succeeds and is
found by lookup; registering anything under the taken alias `A` fails and
the registry survives unchanged. -/
theorem C6_witness :
    (register_plugin [] ⟨"A", .entity "A"⟩ none = (.ok (.entity "A"), [("A", .entity "A")]) ∧
      lookupV [("A", .entity "A")] "A" = some (.entity "A")) ∧
    register_plugin [("A", .entity "A")] ⟨"B", .entity "B"⟩ (some "A") =
      (.err (.valueError "A"), [("A", .entity "A")]) := by
  refine ⟨?_, ?_⟩
  · exact (C6_registry_contract [] ⟨"A", .entity "A"⟩ none).1 rfl
  · exact (C6_registry_contract [("A", .entity "A")] ⟨"B", .entity "B"⟩ (some "A")).2
      (.entity "A") rfl

/-- C7: on any node built only from scalars, dicts and lists, containing no
`_name` type-key and no `$`-reference scalar, `ObjectBuilder.instantiate`
returns a structurally identical copy of the node (keys and order
preserved) and leaves the state unchanged, for every fuel at least the
node's traversal cost. -/
theorem C7_passthrough (ctx : Ctx) (fuel : Nat) (config : Value) (name : String)
    (s : ExpState) (hclean : clean config = true) (hcost : cost config ≤ fuel) :
    ObjectBuilder.instantiate ctx fuel config name s = (.ok config, s) :=
  (clean_passthrough ctx fuel).1 config name s hclean hcost

/-- Witness for C7: a nested clean document passes through unchanged. -/
theorem C7_witness :
    clean (.map [("a", .int 3), ("lst", .list [.str "x", .null])]) = true ∧
    ObjectBuilder.instantiate ctx8 20
        (.map [("a", .int 3), ("lst", .list [.str "x", .null])]) "root" ⟨[], []⟩ =
      (.ok (.map [("a", .int 3), ("lst", .list [.str "x", .null])]), ⟨[], []⟩) := by
  refine ⟨by decide, ?_⟩
  exact C7_passthrough ctx8 20 (.map [("a", .int 3), ("lst", .list [.str "x", .null])])
    "root" ⟨[], []⟩ (by decide) (by decide)

/-- C8: the spec's end-to-end example.  Over
`{"second": ["$VAR", "$test"], "test": "coucou"}` with substitution
variable `VAR=5`, building `second` from a fresh state returns the sequence
`[5, "coucou"]`; `"$VAR"` resolves through the substitution variables and
`"$test"` — absent from the substitution variables and the registry, as the
last two conjuncts record — resolves through the experiment store, which
triggers the implicit build of the sibling key `test` before `second`
completes: in the final store `test` precedes `second` in insertion order,
and both keys are in the in-progress list. -/
theorem C8_end_to_end :
    ExperimentConfig.build ctx8 20 "second" ⟨[], []⟩ =
      (.ok (.list [.int 5, .str "coucou"]),
        ⟨[("test", .str "coucou"), ("second", .list [.int 5, .str "coucou"])],
          ["second", "test"]⟩) ∧
    lookupV ctx8.env "test" = none ∧ lookupV ctx8.registry "test" = none :=
  ⟨rfl, rfl, rfl⟩

/-- C9: `ExperimentConfig.get` is a pure read of the already-built store —
in the source it delegates to `dict.get`, which cannot build and cannot
touch the object store or the in-progress list (the embedding makes it a
state-free function).  It returns the cached value when the key is in the
store and the default otherwise, even when the key is a declared but
not-yet-built top-level document key. -/
theorem C9_get_never_builds (s : ExpState) (k : String) (d : Value) :
    (∀ v, lookupV s.experiment k = some v → ExperimentConfig.get s k d = v)
    ∧ (lookupV s.experiment k = none → ExperimentConfig.get s k d = d) := by
  constructor
  · intro v hv; simp [ExperimentConfig.get, hv]
  · intro hv; simp [ExperimentConfig.get, hv]

/-- Witness for C9: a built key yields its cached value, an absent key the
default. -/
theorem C9_witness :
    ExperimentConfig.get ⟨[("test", .str "coucou")], ["test"]⟩ "test" .null = .str "coucou" ∧
    ExperimentConfig.get ⟨[("test", .str "coucou")], ["test"]⟩ "absent" .null = .null :=
  ⟨(C9_get_never_builds ⟨[("test", .str "coucou")], ["test"]⟩ "test" .null).1
      (.str "coucou") rfl,
    (C9_get_never_builds ⟨[("test", .str "coucou")], ["test"]⟩ "absent" .null).2 rfl⟩

/-- C10: indexing a key absent from the document's top-level keys first
raises the key-absent `KeyError` (not the cycle error) but still appends
the key to the in-progress list as a side effect, so every subsequent
indexing of the same absent key raises the cycle error
`'Loop in config'` instead. -/
theorem C10_absent_key_poisons (ctx : Ctx) (fuel fuel' : Nat) (k : String) (s : ExpState)
    (h2 : 2 ≤ fuel) (h2' : 2 ≤ fuel')
    (hconf : lookupV ctx.config k = none)
    (hexp : lookupV s.experiment k = none) (hbs : k ∉ s.buildsStarted) :
    ExperimentConfig.getitem ctx fuel k s =
      (.err (.keyError k), { s with buildsStarted := s.buildsStarted ++ [k] })
    ∧ ExperimentConfig.getitem ctx fuel' k { s with buildsStarted := s.buildsStarted ++ [k] } =
      (.err .loopInConfig, { s with buildsStarted := s.buildsStarted ++ [k] }) := by
  obtain ⟨j, rfl⟩ : ∃ j, fuel = j + 2 := ⟨fuel - 2, by omega⟩
  obtain ⟨j', rfl⟩ : ∃ j', fuel' = j' + 2 := ⟨fuel' - 2, by omega⟩
  constructor
  · simp [ExperimentConfig.getitem, step, hconf, hexp, hbs]
  · simp [ExperimentConfig.getitem, step, hconf, hexp, hbs]

/-- Witness for C10: over `{"test": "coucou"}`, reading the absent key
`zzz` first raises `KeyError` and poisons the in-progress list; the second
read reports the false cycle. -/
theorem C10_witness :
    ExperimentConfig.getitem ctxC3 2 "zzz" ⟨[], []⟩ =
      (.err (.keyError "zzz"), ⟨[], ["zzz"]⟩)
    ∧ ExperimentConfig.getitem ctxC3 2 "zzz" ⟨[], ["zzz"]⟩ =
      (.err .loopInConfig, ⟨[], ["zzz"]⟩) := by
  have h := C10_absent_key_poisons ctxC3 2 2 "zzz" ⟨[], []⟩ (by omega) (by omega)
    rfl rfl (by decide)
  exact h

end TransferNlp
